import Mathlib

/-!
Verification of the encrypted-evaluation service (eeval).

Ciphertexts are modelled by their ideal plaintext content: a CKKS vector
ciphertext is a `List ℚ` of slot values, and a size-one ciphertext (such as an
encrypted label or bias) is modelled by its single slot value in `ℚ`.  The
homomorphic primitives (dot product, elementwise operations, vector-matrix
product, polynomial evaluation) are the external TenSEAL capability and are
modelled by the corresponding exact arithmetic on those values.
-/

namespace EEval

/-- Elementwise sum of two slot vectors (TenSEAL `+` on `CKKSVector`s of the
same size, also used to add a plaintext vector such as a bias). -/
def vecAdd (a b : List ℚ) : List ℚ := List.zipWith (· + ·) a b

/-- Dot product of two slot vectors (TenSEAL `CKKSVector.dot`); the size-one
result ciphertext is modelled by its single slot value. -/
def dot (a b : List ℚ) : ℚ := (List.zipWith (· * ·) a b).sum

/-- Polynomial evaluation with coefficients listed in increasing degree order
(TenSEAL `CKKSVector.polyval_`): `polyval [c0, c1, c2, ...] z = c0 + c1*z + c2*z^2 + ...`. -/
def polyval : List ℚ → ℚ → ℚ
  | [], _ => 0
  | c :: cs, z => c + z * polyval cs z

/-- Elementwise square (TenSEAL `CKKSVector.square_`). -/
def square (v : List ℚ) : List ℚ := v.map (fun a => a * a)

/-- Vector-matrix product (TenSEAL `CKKSVector.mm`): entry `j` of the result is
`∑ i, v[i] * M[i][j]`; the number of columns is the length of the first row. -/
def vecMM (v : List ℚ) (M : List (List ℚ)) : List ℚ :=
  (List.range (M.headD []).length).map (fun j =>
    ∑ i ∈ Finset.range v.length, v.getD i 0 * (M.getD i []).getD j 0)

/-- Error kinds raised by the Python code.  `typeError` and `valueError` are
the concrete realizations of the specification taxonomy entry
`InvalidArgument` (malformed call parameters). -/
inductive Err where
  | typeError (msg : String)
  | valueError (msg : String)
  | indexError
  | assertionError (msg : String)
  | zeroDivisionError
  | serverError
  | resourceNotFound
  | modelNotFound (msg : String)
  | deserializationError (msg : String)
  | invalidContext (msg : String)
  | evaluationError (msg : String)
  | osError
deriving DecidableEq

/-- The spec error taxonomy maps malformed call parameters (the `TypeError`
and `ValueError` raised by client-side validation) to `InvalidArgument`. -/
def Err.isInvalidArgument : Err → Bool
  | .typeError _ => true
  | .valueError _ => true
  | _ => false

/-- A Python numeric argument: either an `int` or a `float` (used where the
code checks `isinstance(v, int)`). -/
inductive PyNum where
  | int (val : ℤ)
  | float (val : ℚ)
deriving DecidableEq

/-- One iteration of the training loop body of `train_lr`
(src/eeval/server/utils.py lines 46-57): forward pass
`out = x.dot(weights) + bias`, in-place sigmoid approximation
`out.polyval_([0.5, 0.197, 0, -0.004])`, error `out - y`, and accumulation of
`delta_weights += x * out_minus_y` and `delta_bias += out_minus_y`. -/
def trainStep (weights : List ℚ) (bias : ℚ) (acc : List ℚ × ℚ) (xy : List ℚ × ℚ) :
    List ℚ × ℚ :=
  let out := polyval [0.5, 0.197, 0, -0.004] (dot xy.1 weights + bias)
  let out_minus_y := out - xy.2
  (vecAdd acc.1 (xy.1.map (fun v => v * out_minus_y)), acc.2 + out_minus_y)

/-- The loop and final scaling of `train_lr`: fold `trainStep` over
`zip X Y` starting from a zero accumulator, then scale both deltas by
`-1 / len(X)`.  The Python accumulator starts as the integer `0` and becomes a
ciphertext of the common feature size on the first addition; it is modelled by
a zero vector of that size. -/
def trainBody (weights : List ℚ) (bias : ℚ) (X : List (List ℚ)) (Y : List ℚ) :
    List ℚ × ℚ :=
  let n := (X.headD []).length
  let acc := (List.zip X Y).foldl (trainStep weights bias) (List.replicate n 0, 0)
  (acc.1.map (fun v => v * (-1 / (X.length : ℚ))), acc.2 * (-1 / (X.length : ℚ)))

/-- `train_lr` (src/eeval/server/utils.py lines 23-61): asserts
`batch_size == 1`, then runs the training round.  For an empty dataset the
final scaling `-1 / len(X)` raises `ZeroDivisionError`. -/
def train_lr (weights : List ℚ) (bias : ℚ) (X : List (List ℚ)) (Y : List ℚ)
    (batch_size : ℤ) : Except Err (List ℚ × ℚ) :=
  if batch_size = 1 then
    if X.length = 0 then .error .zeroDivisionError
    else .ok (trainBody weights bias X Y)
  else .error (.assertionError "Currently supports batch_size=1 only")

/-- The sigmoid polynomial approximation as the spec writes it:
`0.5 + 0.197*z - 0.004*z^3`. -/
def sigmoidSpec (z : ℚ) : ℚ := 0.5 + 0.197 * z - 0.004 * z ^ 3

/-- Per-example error term as the spec describes it: apply the sigmoid
polynomial to `dot x weights + bias` and subtract the label. -/
def errTerm (weights : List ℚ) (bias : ℚ) (xy : List ℚ × ℚ) : ℚ :=
  sigmoidSpec (dot xy.1 weights + bias) - xy.2

/-- Parameters of the `FC` model (src/eeval/server/models/fc.py): three weight
matrices and three bias vectors. -/
structure FCParams where
  w1 : List (List ℚ)
  b1 : List ℚ
  w2 : List (List ℚ)
  b2 : List ℚ
  w3 : List (List ℚ)
  b3 : List ℚ

/-- `FC.forward` (src/eeval/server/models/fc.py lines 29-38):
`out = enc_x.mm(w1) + b1; out.square_(); out = out.mm(w2) + b2;
out.square_(); out = out.mm(w3) + b3`. -/
def FC.forward (p : FCParams) (enc_x : List ℚ) : List ℚ :=
  let out1 := square (vecAdd (vecMM enc_x p.w1) p.b1)
  let out2 := square (vecAdd (vecMM out1 p.w2) p.b2)
  vecAdd (vecMM out2 p.w3) p.b3

/-- The linear layer as the spec writes it: `Linear_i(v) = v*W_i + b_i`. -/
def LinearSpec (W : List (List ℚ)) (b : List ℚ) (v : List ℚ) : List ℚ :=
  vecAdd (vecMM v W) b

/-- The square activation as the spec writes it. -/
def SquareSpec (v : List ℚ) : List ℚ := v.map (fun a => a ^ 2)

/-- The identity weight matrix of size `n`. -/
def idMat (n : ℕ) : List (List ℚ) :=
  (List.range n).map (fun i => (List.range n).map (fun j => if i = j then 1 else 0))

/-- A TenSEAL context as the models observe it: an identity tag (two
ciphertext blobs are mutually consistent when their context tags agree) and
flags for the key material it holds. -/
structure TSContext where
  tag : ℕ
  hasGaloisKeys : Bool
  hasSecretKey : Bool
deriving DecidableEq

/-- A serialized context blob: either malformed or a serialized context. -/
structure CtxBlob where
  wellFormed : Bool
  ctx : TSContext
deriving DecidableEq

/-- A serialized ciphertext blob: a well-formedness flag, the tag of the
context it was produced under, and its slot values. -/
structure VecBlob where
  wellFormed : Bool
  ctxTag : ℕ
  values : List ℚ
deriving DecidableEq

/-- TenSEAL `ts.context_from`: deserializes a context blob, failing on a
malformed blob. -/
def context_from (b : CtxBlob) : Option TSContext :=
  if b.wellFormed then some b.ctx else none

/-- TenSEAL `ts.ckks_vector_from`: deserializes a ciphertext blob under a
context, failing when the blob is malformed or inconsistent with the
context. -/
def ckks_vector_from (ctx : TSContext) (b : VecBlob) : Option (List ℚ) :=
  if b.wellFormed ∧ b.ctxTag = ctx.tag then some b.values else none

/-- TenSEAL `ctx.galois_keys()`: fails when the context holds no galois
keys. -/
def galois_keys (ctx : TSContext) : Option Unit :=
  if ctx.hasGaloisKeys then some () else none

/-- `LinearLayer.prepare_input` (src/eeval/server/models/linear_layer.py lines
30-45): deserialize the context and the ciphertext, raising
`DeserializationError` when either fails; then probe `ctx.galois_keys()`,
raising `InvalidContext` when that fails; otherwise return the decoded
encrypted input. -/
def LinearLayer.prepare_input (context : CtxBlob) (ckks_vector : VecBlob) :
    Except Err (List ℚ) :=
  match context_from context with
  | none => .error (.deserializationError "cannot deserialize context or ckks_vector")
  | some ctx =>
    match ckks_vector_from ctx ckks_vector with
    | none => .error (.deserializationError "cannot deserialize context or ckks_vector")
    | some enc_x =>
      match galois_keys ctx with
      | none => .error (.invalidContext "the context doesn't hold galois keys")
      | some _ => .ok enc_x

/-- `FC.deserialize_input` (src/eeval/server/models/fc.py lines 40-55): the
same deserialization and capability check as `LinearLayer.prepare_input`. -/
def FC.deserialize_input (context : CtxBlob) (ckks_vector : VecBlob) :
    Except Err (List ℚ) :=
  match context_from context with
  | none => .error (.deserializationError "cannot deserialize context or ckks_vector")
  | some ctx =>
    match ckks_vector_from ctx ckks_vector with
    | none => .error (.deserializationError "cannot deserialize context or ckks_vector")
    | some enc_x =>
      match galois_keys ctx with
      | none => .error (.invalidContext "the context doesn't hold galois keys")
      | some _ => .ok enc_x

/-- A model definition as registered in `_MODEL_DEFS`
(src/eeval/server/models/__init__.py): a constructor building an instance
from loaded parameters, a default version, the version list, and an optional
data directory override.  Parameters and instances are modelled as `List ℚ`
(an unpickled parameter blob and the object built from it). -/
structure ModelDefn where
  constructor : List ℚ → List ℚ
  default_version : String
  versions : List String
  data_dir : Option String

/-- The model registry state: `_MODEL_DEFS`, `_MODELS_CACHE` (a slot per
registered version, `none` until first load) and the process-wide
`_DEFAULT_DATA_DIR`.  The dictionaries are modelled as association lists where
assignment prepends (a lookup sees the newest binding, like a dict write). -/
structure RegistryState where
  defs : List (String × ModelDefn)
  cache : List ((String × String) × Option (List ℚ))
  defaultDataDir : String

/-- The file system the registry loads parameter files from: a map from file
path to unpickled parameters. -/
abbrev FileSystem := List (String × List ℚ)

/-- The parameter file path `_load_parameters` opens
(src/eeval/server/models/__init__.py lines 103-129):
`os.path.join(data_dir, f"\x7bmodel_name\x7d-\x7bversion\x7d.pickle")` with
`data_dir` falling back to the process-wide default directory. -/
def paramsFilePath (defn : ModelDefn) (defaultDir name version : String) : String :=
  (defn.data_dir.getD defaultDir) ++ "/" ++ name ++ "-" ++ version ++ ".pickle"

/-- The lazy-loading tail of `get_model`
(src/eeval/server/models/__init__.py lines 154-161), entered once the name is
known and the version resolved: return the cached instance when the cache
slot is filled, otherwise load the parameter file (raising the caught
`OSError` when it does not exist), construct the instance, cache it, and
return it.  A registered model always has a cache slot; an absent slot
behaves like an empty one.  The last component records the parameter files
read, so that a call that hits the cache returns an empty list there. -/
def getModelLoad (fs : FileSystem) (s : RegistryState) (name : String)
    (defn : ModelDefn) (version : String) :
    Except Err (List ℚ × RegistryState × List String) :=
  match List.lookup (name, version) s.cache with
  | some (some inst) => .ok (inst, s, [])
  | _ =>
    let path := paramsFilePath defn s.defaultDataDir name version
    match List.lookup path fs with
    | none => .error .osError
    | some params =>
      let inst := defn.constructor params
      .ok (inst, { s with cache := ((name, version), some inst) :: s.cache }, [path])

/-- `get_model` (src/eeval/server/models/__init__.py lines 146-161): raise
`ModelNotFound` when the name is not registered; resolve a missing version to
the default version; raise `ModelNotFound` when a given version is not among
the registered versions; then load lazily through the cache. -/
def get_model (fs : FileSystem) (s : RegistryState) (model_name : String)
    (version : Option String) :
    Except Err (List ℚ × RegistryState × List String) :=
  match List.lookup model_name s.defs with
  | none =>
    .error (.modelNotFound ("Model `" ++ model_name ++ "` can't be found in this server"))
  | some defn =>
    match version with
    | none => getModelLoad fs s model_name defn defn.default_version
    | some v =>
      if v ∈ defn.versions then getModelLoad fs s model_name defn v
      else .error (.modelNotFound ("Model `" ++ model_name ++ "` doesn't have version `" ++ v ++ "`"))

/-- Observable effects of a client training call, used to state when
cryptographic work and registrations happen. -/
inductive Event where
  | encryptVec
  | registerCtx
  | registerDs
  | trainRound
deriving DecidableEq

/-- A dataset as `storage.save_dataset` stores it
(src/eeval/server/storage.py lines 33-37): the context id, the feature
ciphertexts, the label ciphertexts (each a size-one ciphertext, modelled by
its value) and the batch size, all verbatim. -/
structure StoredDataset where
  ctx_id : ℕ
  X : List (List ℚ)
  Y : List ℚ
  batch_size : ℤ
deriving DecidableEq

/-- The server-side storage (src/eeval/server/storage.py): the `CONTEXTS` and
`DATASETS` dictionaries keyed by generated ids.  Random 32-byte hex ids are
modelled by a fresh-id counter; dictionary writes prepend, so a lookup sees
the newest binding. -/
structure ServerState where
  contexts : List (ℕ × CtxBlob)
  datasets : List (ℕ × StoredDataset)
  nextId : ℕ
deriving DecidableEq

/-- `storage.save_context`: store the context blob verbatim under a fresh
id. -/
def save_context (blob : CtxBlob) (s : ServerState) : ℕ × ServerState :=
  (s.nextId,
   { s with contexts := (s.nextId, blob) :: s.contexts, nextId := s.nextId + 1 })

/-- `storage.save_dataset`: store `[ctx_id, X, Y, batch_size]` verbatim under
a fresh id. -/
def save_dataset (ctx_id : ℕ) (X : List (List ℚ)) (Y : List ℚ) (batch_size : ℤ)
    (s : ServerState) : ℕ × ServerState :=
  (s.nextId,
   { s with datasets := (s.nextId, ⟨ctx_id, X, Y, batch_size⟩) :: s.datasets,
            nextId := s.nextId + 1 })

/-- The `/datasets/register` endpoint (src/eeval/server/main.py lines
198-215): decode the entries of `X` and `Y` pairwise with `zip` (so trailing
entries of the longer list are dropped), then store the dataset verbatim via
`storage.save_dataset` — no check of `batch_size` and no check that
`context_id` names a registered context. -/
def Server.register_dataset (context_id : ℕ) (X : List (List ℚ)) (Y : List ℚ)
    (batch_size : ℤ) (s : ServerState) : ℕ × ServerState :=
  let pairs := List.zip X Y
  save_dataset context_id (pairs.map Prod.fst) (pairs.map Prod.snd) batch_size s

/-- `Client.register_dataset` (src/eeval/client/client.py lines 196-278):
after validating `batch_size` (an int, at least 1) and that exactly one of
`context` and `context_id` is set, register the context when a blob was
passed, serialize the entries pairwise with `zip`, and post them to the
server, returning `(context_id, dataset_id)`. -/
def Client.register_dataset (enc_X : List (List ℚ)) (enc_Y : List ℚ)
    (context : Option CtxBlob) (context_id : Option ℕ) (batch_size : PyNum)
    (s : ServerState) : Except Err ((ℕ × ℕ) × ServerState × List Event) :=
  match batch_size with
  | .float _ => .error (.typeError "batch_size need to be an int")
  | .int bs =>
    if bs < 1 then .error (.valueError "batch_size need to be greater or equal than 1")
    else
      match context, context_id with
      | some _, some _ => .error (.valueError "context and context_id can't be both set")
      | none, none => .error (.valueError "context or context_id need to be set")
      | some cb, none =>
        let (cid, s1) := save_context cb s
        let pairs := List.zip enc_X enc_Y
        let (did, s2) :=
          Server.register_dataset cid (pairs.map Prod.fst) (pairs.map Prod.snd) bs s1
        .ok ((cid, did), s2, [.registerCtx, .registerDs])
      | none, some cid =>
        let pairs := List.zip enc_X enc_Y
        let (did, s1) :=
          Server.register_dataset cid (pairs.map Prod.fst) (pairs.map Prod.snd) bs s
        .ok ((cid, did), s1, [.registerDs])

/-- Modelled from the spec: the server `/train-lr` endpoint is not part of
the repository sources (only its client caller `Client._train_logreg` and the
round computation `train_lr` are).  Per spec section 4.4, `train_round` loads
the registered dataset by id and runs the round computation on it,
returning the encrypted deltas. -/
def Server.train_round (weights : List ℚ) (bias : ℚ) (dataset_id : ℕ)
    (s : ServerState) : Except Err (List ℚ × ℚ) :=
  match List.lookup dataset_id s.datasets with
  | none => .error .resourceNotFound
  | some ds => train_lr weights bias ds.X ds.Y ds.batch_size

/-- The epoch loop of `Client.train_logreg` (src/eeval/client/client.py lines
404-418): each round encrypts the current parameters, invokes the server
round on the registered dataset, decrypts the returned deltas, and updates
`weights = [w + u for w, u in zip(weights, weights_update)]` and
`bias + bias_update`.  A failing server round surfaces as a server error. -/
def epochLoop (s : ServerState) (dataset_id : ℕ) :
    ℕ → List ℚ → ℚ → List Event × Except Err (List ℚ × ℚ)
  | 0, w, b => ([], .ok (w, b))
  | k + 1, w, b =>
    match Server.train_round w b dataset_id s with
    | .error _ => ([.encryptVec, .encryptVec, .trainRound], .error .serverError)
    | .ok d =>
      let next := epochLoop s dataset_id k (List.zipWith (· + ·) w d.1) (b + d.2)
      (.encryptVec :: .encryptVec :: .trainRound :: next.1, next.2)

/-- The body of `Client.train_logreg` after validation
(src/eeval/client/client.py lines 369-420): read `n_features = len(X[0])`
(an `IndexError` on an empty dataset), assert the weights size, encrypt every
example and label individually (`batch_size = 1`), register the dataset once,
then run the epoch loop.  The first component records the observable events
in order. -/
def train_logreg_rest (ctx : TSContext) (X : List (List ℚ)) (Y : List ℚ)
    (weights : List ℚ) (bias : ℚ) (epochs : ℕ) (s : ServerState) :
    List Event × ServerState × Except Err (List ℚ × ℚ) :=
  match X with
  | [] => ([], s, .error .indexError)
  | x0 :: _ =>
    if weights.length = x0.length then
      let enc := List.replicate (2 * (List.zip X Y).length) Event.encryptVec
      match Client.register_dataset X Y (some ⟨true, ctx⟩) none (.int 1) s with
      | .error e => (enc, s, .error e)
      | .ok ((_, did), s1, regTr) =>
        let next := epochLoop s1 did epochs weights bias
        (enc ++ regTr ++ next.1, s1, next.2)
    else ([], s, .error (.assertionError "weights size doesn't match the number of features"))

/-- `Client.train_logreg` (src/eeval/client/client.py lines 318-420):
validate `epochs` (an int, at least 1), `len(X) == len(Y)` and that the
context holds a secret key, then run the training body. -/
def train_logreg (ctx : TSContext) (X : List (List ℚ)) (Y : List ℚ)
    (weights : List ℚ) (bias : ℚ) (epochs : PyNum) (s : ServerState) :
    List Event × ServerState × Except Err (List ℚ × ℚ) :=
  match epochs with
  | .float _ => ([], s, .error (.typeError "epochs must be an int"))
  | .int e =>
    if e < 1 then
      ([], s, .error (.valueError "epochs must be greater or equal than 1"))
    else if X.length ≠ Y.length then
      ([], s, .error (.valueError "number of data entries doesn't match the number of labels"))
    else if ctx.hasSecretKey then
      train_logreg_rest ctx X Y weights bias e.toNat s
    else ([], s, .error (.valueError "context doesn't hold a secret-key"))

/-- The per-round parameter update the spec describes for one epoch: add the
deltas of one server round to the weights elementwise and to the bias. -/
def lrRound (X : List (List ℚ)) (Y : List ℚ) (wb : List ℚ × ℚ) : List ℚ × ℚ :=
  let d := trainBody wb.1 wb.2 X Y
  (List.zipWith (· + ·) wb.1 d.1, wb.2 + d.2)

theorem polyval_sigmoid (z : ℚ) :
    polyval [0.5, 0.197, 0, -0.004] z = sigmoidSpec z := by
  simp [polyval, sigmoidSpec]
  ring

theorem vecAdd_length (a b : List ℚ) : (vecAdd a b).length = min a.length b.length :=
  List.length_zipWith ..

theorem getD_map (f : ℚ → ℚ) (x : List ℚ) (i : ℕ) (h : i < x.length) :
    (x.map f).getD i 0 = f (x.getD i 0) := by
  rw [List.getD_eq_getElem _ _ (by simpa using h), List.getD_eq_getElem _ _ h,
    List.getElem_map]

theorem vecAdd_getD (a b : List ℚ) (i : ℕ) (h1 : i < a.length) (h2 : i < b.length) :
    (vecAdd a b).getD i 0 = a.getD i 0 + b.getD i 0 := by
  rw [List.getD_eq_getElem _ _ (by simp [vecAdd]; omega),
    List.getD_eq_getElem _ _ h1, List.getD_eq_getElem _ _ h2]
  exact List.getElem_zipWith ..

theorem trainStep_eq (w : List ℚ) (b : ℚ) (acc : List ℚ × ℚ) (xy : List ℚ × ℚ) :
    trainStep w b acc xy =
      (vecAdd acc.1 (xy.1.map (fun v => v * errTerm w b xy)), acc.2 + errTerm w b xy) := by
  simp only [trainStep, errTerm, polyval_sigmoid]

theorem foldl_trainStep_snd (w : List ℚ) (b : ℚ) (l : List (List ℚ × ℚ))
    (acc : List ℚ × ℚ) :
    (l.foldl (trainStep w b) acc).2 = acc.2 + (l.map (errTerm w b)).sum := by
  induction l generalizing acc with
  | nil => simp
  | cons hd tl ih =>
    rw [List.foldl_cons, ih, trainStep_eq]
    simp
    ring

theorem foldl_trainStep_fst_length (w : List ℚ) (b : ℚ) (n : ℕ)
    (l : List (List ℚ × ℚ)) (acc : List ℚ × ℚ) (hacc : acc.1.length = n)
    (hl : ∀ xy ∈ l, xy.1.length = n) :
    (l.foldl (trainStep w b) acc).1.length = n := by
  induction l generalizing acc with
  | nil => simpa
  | cons hd tl ih =>
    rw [List.foldl_cons, trainStep_eq]
    refine ih _ ?_ (fun xy h => hl xy (List.mem_cons_of_mem _ h))
    have hh := hl hd (List.mem_cons_self _ _)
    simp [vecAdd_length, hacc, hh]

theorem foldl_trainStep_fst_getD (w : List ℚ) (b : ℚ) (n : ℕ)
    (l : List (List ℚ × ℚ)) (acc : List ℚ × ℚ) (hacc : acc.1.length = n)
    (hl : ∀ xy ∈ l, xy.1.length = n) (i : ℕ) (hi : i < n) :
    (l.foldl (trainStep w b) acc).1.getD i 0 =
      acc.1.getD i 0 + (l.map (fun xy => xy.1.getD i 0 * errTerm w b xy)).sum := by
  induction l generalizing acc with
  | nil => simp
  | cons hd tl ih =>
    have hh := hl hd (List.mem_cons_self _ _)
    rw [List.foldl_cons, trainStep_eq,
      ih _ (by simp [vecAdd_length, hacc, hh]) (fun xy h => hl xy (List.mem_cons_of_mem _ h)),
      vecAdd_getD _ _ _ (hacc ▸ hi) (by simpa [hh] using hi),
      getD_map _ _ _ (hh ▸ hi)]
    simp
    ring

/-- C1: with `batch_size = 1`, the server training round `train_lr` computes,
for each example `(x, y)` of the dataset in order, `out = dot(x, weights) + bias`,
applies the polynomial `0.5 + 0.197*z - 0.004*z^3` to `out`, takes
`err = out - y`, accumulates `delta_weights += x * err` and `delta_bias += err`
over the whole dataset, and finally scales both accumulated deltas by `-1/N`
with `N` the number of examples: every entry of the returned `delta_weights`
and the returned `delta_bias` equal those closed-form sums. -/
theorem train_lr_round_spec (w : List ℚ) (b : ℚ) (X : List (List ℚ)) (Y : List ℚ)
    (n : ℕ) (hlen : X.length = Y.length) (hne : X ≠ [])
    (hdim : ∀ x ∈ X, x.length = n) :
    ∃ dw db, train_lr w b X Y 1 = .ok (dw, db) ∧
      dw.length = n ∧
      (∀ i, i < n → dw.getD i 0 =
        -1 / (X.length : ℚ) *
          ((List.zip X Y).map (fun xy => xy.1.getD i 0 * errTerm w b xy)).sum) ∧
      db = -1 / (X.length : ℚ) * ((List.zip X Y).map (errTerm w b)).sum := by
  obtain ⟨x0, X', rfl⟩ : ∃ x0 X', X = x0 :: X' := by
    cases X with
    | nil => exact absurd rfl hne
    | cons a l => exact ⟨a, l, rfl⟩
  have hn : ((x0 :: X').headD []).length = n := hdim x0 (List.mem_cons_self _ _)
  have hzl : ∀ xy ∈ List.zip (x0 :: X') Y, xy.1.length = n :=
    fun xy h => hdim xy.1 (List.of_mem_zip h).1
  have hrep : (List.replicate ((x0 :: X').headD []).length (0 : ℚ)).length = n := by
    simpa using hn
  have hok : train_lr w b (x0 :: X') Y 1 = .ok (trainBody w b (x0 :: X') Y) := by
    unfold train_lr
    simp
  have hfst : (trainBody w b (x0 :: X') Y).1 =
      ((List.zip (x0 :: X') Y).foldl (trainStep w b)
        (List.replicate ((x0 :: X').headD []).length 0, 0)).1.map
        (fun v => v * (-1 / (((x0 :: X').length : ℕ) : ℚ))) := rfl
  have hsnd : (trainBody w b (x0 :: X') Y).2 =
      ((List.zip (x0 :: X') Y).foldl (trainStep w b)
        (List.replicate ((x0 :: X').headD []).length 0, 0)).2 *
        (-1 / (((x0 :: X').length : ℕ) : ℚ)) := rfl
  have hlacc := foldl_trainStep_fst_length w b n (List.zip (x0 :: X') Y)
    (List.replicate ((x0 :: X').headD []).length 0, 0) hrep hzl
  refine ⟨(trainBody w b (x0 :: X') Y).1, (trainBody w b (x0 :: X') Y).2,
    by rw [hok], ?_, ?_, ?_⟩
  · rw [hfst]
    simpa using hlacc
  · intro i hi
    rw [hfst, getD_map _ _ _ (by rw [hlacc]; exact hi),
      foldl_trainStep_fst_getD w b n _ _ hrep hzl i hi,
      List.getD_eq_getElem _ _ (by rw [List.length_replicate, hn]; exact hi),
      List.getElem_replicate]
    ring
  · rw [hsnd, foldl_trainStep_snd]
    ring

/-- Witness for `train_lr_round_spec` at a concrete one-example dataset. -/
theorem train_lr_round_spec_witness :
    ∃ dw db, train_lr [1] 0 [[1]] [1] 1 = .ok (dw, db) ∧
      dw.length = 1 ∧
      (∀ i, i < 1 → dw.getD i 0 =
        -1 / ((([[1]] : List (List ℚ))).length : ℚ) *
          ((List.zip ([[1]] : List (List ℚ)) ([1] : List ℚ)).map
            (fun xy => xy.1.getD i 0 * errTerm [1] 0 xy)).sum) ∧
      db = -1 / ((([[1]] : List (List ℚ))).length : ℚ) *
        ((List.zip ([[1]] : List (List ℚ)) ([1] : List ℚ)).map (errTerm [1] 0)).sum :=
  train_lr_round_spec [1] 0 [[1]] [1] 1 (by decide) (by decide) (by decide)

/-- C7: the server-side training round `train_lr` fails (the Python assert
raises) for every dataset whose stored `batch_size` is not 1, and performs the
round computation only under the precondition `batch_size = 1`. -/
theorem train_lr_batch_size_guard (w : List ℚ) (b : ℚ) (X : List (List ℚ))
    (Y : List ℚ) (bs : ℤ) :
    (bs ≠ 1 →
      train_lr w b X Y bs = .error (.assertionError "Currently supports batch_size=1 only")) ∧
    (bs = 1 → X ≠ [] → train_lr w b X Y bs = .ok (trainBody w b X Y)) := by
  constructor
  · intro h
    unfold train_lr
    simp [h]
  · rintro rfl h
    unfold train_lr
    simp [h]

/-- Witness for `train_lr_batch_size_guard` at `batch_size = 2` and
`batch_size = 1`. -/
theorem train_lr_batch_size_guard_witness :
    train_lr [1] 0 [[1]] [1] 2 =
        .error (.assertionError "Currently supports batch_size=1 only") ∧
      train_lr [1] 0 [[1]] [1] 1 = .ok (trainBody [1] 0 [[1]] [1]) :=
  ⟨(train_lr_batch_size_guard [1] 0 [[1]] [1] 2).1 (by decide),
   (train_lr_batch_size_guard [1] 0 [[1]] [1] 1).2 rfl (by decide)⟩

theorem square_eq_squareSpec (v : List ℚ) : square v = SquareSpec v := by
  unfold square SquareSpec
  have h : (fun a : ℚ => a * a) = fun a : ℚ => a ^ 2 := by
    funext a
    ring
  rw [h]

theorem vecAdd_replicate_zero (x : List ℚ) :
    vecAdd x (List.replicate x.length 0) = x := by
  induction x with
  | nil => rfl
  | cons a l ih => simpa [vecAdd, List.replicate_succ] using ih

theorem idMat_headD_length (n : ℕ) : ((idMat n).headD []).length = n := by
  cases n with
  | zero => rfl
  | succ m => simp [idMat, List.range_succ_eq_map]

theorem idMat_entry (n i j : ℕ) (hi : i < n) (hj : j < n) :
    ((idMat n).getD i []).getD j 0 = if i = j then (1 : ℚ) else 0 := by
  rw [List.getD_eq_getElem (idMat n) _ (by simpa [idMat] using hi)]
  simp only [idMat, List.getElem_map, List.getElem_range]
  rw [List.getD_eq_getElem _ _ (by simpa using hj)]
  simp

theorem vecMM_idMat (v : List ℚ) (n : ℕ) (h : v.length = n) :
    vecMM v (idMat n) = v := by
  subst h
  unfold vecMM
  rw [idMat_headD_length]
  refine List.ext_getElem (by simp) ?_
  intro j h1 h2
  simp only [List.getElem_map, List.getElem_range]
  have hj : j < v.length := by simpa using h1
  calc (∑ i ∈ Finset.range v.length, v.getD i 0 * ((idMat v.length).getD i []).getD j 0)
      = ∑ i ∈ Finset.range v.length, if i = j then v.getD i 0 else 0 := by
        refine Finset.sum_congr rfl ?_
        intro i hmem
        rw [idMat_entry _ _ _ (Finset.mem_range.mp hmem) hj]
        split <;> ring
    _ = v.getD j 0 := by
        rw [Finset.sum_ite_eq' (Finset.range v.length) j (fun i => v.getD i 0)]
        simp [hj]
    _ = v[j] := List.getD_eq_getElem _ _ hj

/-- C2: the FC forward pass is the composition
`Linear3(Square(Linear2(Square(Linear1(x)))))` with `Linear_i(v) = v*W_i + b_i`,
and with identity weight matrices and zero biases at every layer it equals the
plaintext composition `(x^2)^2` applied elementwise. -/
theorem FC_forward_spec (p : FCParams) (x : List ℚ) (n : ℕ) :
    FC.forward p x =
      LinearSpec p.w3 p.b3 (SquareSpec (LinearSpec p.w2 p.b2
        (SquareSpec (LinearSpec p.w1 p.b1 x)))) ∧
    (x.length = n →
      FC.forward ⟨idMat n, List.replicate n 0, idMat n, List.replicate n 0,
          idMat n, List.replicate n 0⟩ x =
        x.map (fun a => (a ^ 2) ^ 2)) := by
  constructor
  · simp only [FC.forward, LinearSpec, square_eq_squareSpec]
  · intro hx
    show vecAdd (vecMM (square (vecAdd (vecMM (square (vecAdd (vecMM x (idMat n))
        (List.replicate n 0))) (idMat n)) (List.replicate n 0))) (idMat n))
        (List.replicate n 0) = x.map (fun a => (a ^ 2) ^ 2)
    have h1 : vecAdd (vecMM x (idMat n)) (List.replicate n 0) = x := by
      rw [vecMM_idMat _ _ hx, ← hx, vecAdd_replicate_zero]
    rw [h1]
    have hsx : (square x).length = n := by simpa [square] using hx
    have h2 : vecAdd (vecMM (square x) (idMat n)) (List.replicate n 0) = square x := by
      rw [vecMM_idMat _ _ hsx, ← hsx, vecAdd_replicate_zero]
    rw [h2]
    have hssx : (square (square x)).length = n := by simpa [square] using hsx
    have h3 : vecAdd (vecMM (square (square x)) (idMat n)) (List.replicate n 0) =
        square (square x) := by
      rw [vecMM_idMat _ _ hssx, ← hssx, vecAdd_replicate_zero]
    rw [h3]
    unfold square
    rw [List.map_map]
    have h : ((fun a : ℚ => a * a) ∘ fun a : ℚ => a * a) = fun a : ℚ => (a ^ 2) ^ 2 := by
      funext a
      simp only [Function.comp]
      ring
    rw [h]

/-- Witness for `FC_forward_spec`: identity weights and zero biases on the
input `[2, 3]` give `[16, 81]`. -/
theorem FC_forward_spec_witness :
    FC.forward ⟨idMat 2, List.replicate 2 0, idMat 2, List.replicate 2 0,
        idMat 2, List.replicate 2 0⟩ [2, 3] =
      List.map (fun a => (a ^ 2) ^ 2) [2, 3] :=
  (FC_forward_spec ⟨idMat 2, List.replicate 2 0, idMat 2, List.replicate 2 0,
    idMat 2, List.replicate 2 0⟩ [2, 3] 2).2 (by decide)

/-- C6: for both models (`LinearLayer.prepare_input` and
`FC.deserialize_input`), a malformed or mutually inconsistent context or
ciphertext blob yields `DeserializationError`; a well-formed, consistent pair
whose context lacks galois keys yields `InvalidContext` (never
`EvaluationError`, and no crash since the function is total); otherwise the
decoded encrypted input is returned. -/
theorem prepare_input_error_classification (cb : CtxBlob) (vb : VecBlob) :
    ((cb.wellFormed = false ∨ vb.wellFormed = false ∨ vb.ctxTag ≠ cb.ctx.tag) →
      LinearLayer.prepare_input cb vb =
          .error (.deserializationError "cannot deserialize context or ckks_vector") ∧
        FC.deserialize_input cb vb =
          .error (.deserializationError "cannot deserialize context or ckks_vector")) ∧
    (cb.wellFormed = true → vb.wellFormed = true → vb.ctxTag = cb.ctx.tag →
      cb.ctx.hasGaloisKeys = false →
      LinearLayer.prepare_input cb vb =
          .error (.invalidContext "the context doesn't hold galois keys") ∧
        FC.deserialize_input cb vb =
          .error (.invalidContext "the context doesn't hold galois keys")) ∧
    (cb.wellFormed = true → vb.wellFormed = true → vb.ctxTag = cb.ctx.tag →
      cb.ctx.hasGaloisKeys = true →
      LinearLayer.prepare_input cb vb = .ok vb.values ∧
        FC.deserialize_input cb vb = .ok vb.values) ∧
    (∀ msg, LinearLayer.prepare_input cb vb ≠ .error (.evaluationError msg) ∧
      FC.deserialize_input cb vb ≠ .error (.evaluationError msg)) := by
  refine ⟨?_, ?_, ?_, ?_⟩
  · intro h
    cases hcw : cb.wellFormed <;> cases hvw : vb.wellFormed <;>
      rcases h with h | h | h <;>
        simp_all [LinearLayer.prepare_input, FC.deserialize_input, context_from,
          ckks_vector_from, galois_keys]
  · intro hcw hvw ht hg
    simp [LinearLayer.prepare_input, FC.deserialize_input, context_from,
      ckks_vector_from, galois_keys, hcw, hvw, ht, hg]
  · intro hcw hvw ht hg
    simp [LinearLayer.prepare_input, FC.deserialize_input, context_from,
      ckks_vector_from, galois_keys, hcw, hvw, ht, hg]
  · intro msg
    cases hcw : cb.wellFormed <;> cases hvw : vb.wellFormed <;>
      by_cases ht : vb.ctxTag = cb.ctx.tag <;>
        cases hg : cb.ctx.hasGaloisKeys <;>
          simp_all [LinearLayer.prepare_input, FC.deserialize_input, context_from,
            ckks_vector_from, galois_keys]

/-- Witness for `prepare_input_error_classification` exercising every branch
at concrete blobs: a malformed pair, a pair lacking galois keys, and a valid
pair. -/
theorem prepare_input_error_classification_witness :
    (LinearLayer.prepare_input ⟨false, ⟨0, true, true⟩⟩ ⟨true, 0, [1]⟩ =
        .error (.deserializationError "cannot deserialize context or ckks_vector") ∧
      FC.deserialize_input ⟨false, ⟨0, true, true⟩⟩ ⟨true, 0, [1]⟩ =
        .error (.deserializationError "cannot deserialize context or ckks_vector")) ∧
    (LinearLayer.prepare_input ⟨true, ⟨0, false, true⟩⟩ ⟨true, 0, [1]⟩ =
        .error (.invalidContext "the context doesn't hold galois keys") ∧
      FC.deserialize_input ⟨true, ⟨0, false, true⟩⟩ ⟨true, 0, [1]⟩ =
        .error (.invalidContext "the context doesn't hold galois keys")) ∧
    (LinearLayer.prepare_input ⟨true, ⟨0, true, true⟩⟩ ⟨true, 0, [1]⟩ = .ok [1] ∧
      FC.deserialize_input ⟨true, ⟨0, true, true⟩⟩ ⟨true, 0, [1]⟩ = .ok [1]) ∧
    (LinearLayer.prepare_input ⟨true, ⟨0, false, true⟩⟩ ⟨true, 0, [1]⟩ ≠
        .error (.evaluationError "x") ∧
      FC.deserialize_input ⟨true, ⟨0, false, true⟩⟩ ⟨true, 0, [1]⟩ ≠
        .error (.evaluationError "x")) :=
  ⟨(prepare_input_error_classification ⟨false, ⟨0, true, true⟩⟩ ⟨true, 0, [1]⟩).1
      (Or.inl rfl),
   (prepare_input_error_classification ⟨true, ⟨0, false, true⟩⟩ ⟨true, 0, [1]⟩).2.1
      rfl rfl rfl rfl,
   (prepare_input_error_classification ⟨true, ⟨0, true, true⟩⟩ ⟨true, 0, [1]⟩).2.2.1
      rfl rfl rfl rfl,
   (prepare_input_error_classification ⟨true, ⟨0, false, true⟩⟩ ⟨true, 0, [1]⟩).2.2.2
      "x"⟩

/-- C8: `get_model` fails with `ModelNotFound` for every unregistered name —
with a message containing the text "can't be found" — and for every given
version not among the registered versions of a registered name; when the
version is omitted it resolves to the model's default version. -/
theorem get_model_not_found (fs : FileSystem) (s : RegistryState) (name : String)
    (version : Option String) :
    (List.lookup name s.defs = none →
      get_model fs s name version =
          .error (.modelNotFound ("Model `" ++ name ++ "` can't be found in this server")) ∧
        ∃ pre post, ("Model `" ++ name ++ "` can't be found in this server" : String) =
          pre ++ "can't be found" ++ post) ∧
    (∀ defn v, List.lookup name s.defs = some defn → version = some v →
      v ∉ defn.versions →
      get_model fs s name version =
        .error (.modelNotFound ("Model `" ++ name ++ "` doesn't have version `" ++ v ++ "`"))) ∧
    (∀ defn, List.lookup name s.defs = some defn →
      get_model fs s name none = getModelLoad fs s name defn defn.default_version) := by
  refine ⟨?_, ?_, ?_⟩
  · intro h
    refine ⟨by unfold get_model; rw [h], "Model `" ++ name ++ "` ", " in this server", ?_⟩
    simp only [String.append_assoc]
    congr 1
  · intro defn v hdef hv hnot
    subst hv
    unfold get_model
    rw [hdef]
    simp [hnot]
  · intro defn hdef
    unfold get_model
    rw [hdef]

/-- Witness for `get_model_not_found`: an empty registry rejects "unknown", a
one-model registry rejects version "9.9", and an omitted version resolves to
the default. -/
theorem get_model_not_found_witness :
    (get_model [] ⟨[], [], "data"⟩ "unknown" none =
          .error (.modelNotFound ("Model `" ++ "unknown" ++ "` can't be found in this server")) ∧
        ∃ pre post, ("Model `" ++ "unknown" ++ "` can't be found in this server" : String) =
          pre ++ "can't be found" ++ post) ∧
    (get_model [] ⟨[("fc", ⟨fun p => p, "0.1", ["0.1"], none⟩)], [], "data"⟩ "fc" (some "9.9") =
      .error (.modelNotFound ("Model `" ++ "fc" ++ "` doesn't have version `" ++ "9.9" ++ "`"))) ∧
    (get_model [] ⟨[("fc", ⟨fun p => p, "0.1", ["0.1"], none⟩)], [], "data"⟩ "fc" none =
      getModelLoad [] ⟨[("fc", ⟨fun p => p, "0.1", ["0.1"], none⟩)], [], "data"⟩ "fc"
        ⟨fun p => p, "0.1", ["0.1"], none⟩ "0.1") :=
  ⟨(get_model_not_found [] ⟨[], [], "data"⟩ "unknown" none).1 rfl,
   (get_model_not_found [] ⟨[("fc", ⟨fun p => p, "0.1", ["0.1"], none⟩)], [], "data"⟩
      "fc" (some "9.9")).2.1 ⟨fun p => p, "0.1", ["0.1"], none⟩ "9.9" rfl rfl (by simp),
   (get_model_not_found [] ⟨[("fc", ⟨fun p => p, "0.1", ["0.1"], none⟩)], [], "data"⟩
      "fc" none).2.2 ⟨fun p => p, "0.1", ["0.1"], none⟩ rfl⟩

/-- C9: for a registered `(name, version)` whose cache slot is empty and whose
parameter file exists, the first `get_model` call loads the file named
`name-version.pickle` from the model's data directory (or the process-wide
default directory), constructs the instance and caches it; the second call
returns the identical instance reading no file at all. -/
theorem get_model_caches (fs : FileSystem) (s : RegistryState) (name v : String)
    (defn : ModelDefn) (params : List ℚ)
    (hdef : List.lookup name s.defs = some defn)
    (hv : v ∈ defn.versions)
    (hslot : List.lookup (name, v) s.cache = some none)
    (hfile : List.lookup (defn.data_dir.getD s.defaultDataDir ++ "/" ++ name ++ "-" ++ v ++ ".pickle") fs
      = some params) :
    ∃ s1 : RegistryState,
      get_model fs s name (some v) =
          .ok (defn.constructor params, s1,
            [defn.data_dir.getD s.defaultDataDir ++ "/" ++ name ++ "-" ++ v ++ ".pickle"]) ∧
        get_model fs s1 name (some v) = .ok (defn.constructor params, s1, []) ∧
        s1.defs = s.defs ∧ s1.defaultDataDir = s.defaultDataDir := by
  refine ⟨{ s with cache := ((name, v), some (defn.constructor params)) :: s.cache },
    ?_, ?_, rfl, rfl⟩
  · unfold get_model
    rw [hdef]
    simp only [hv, if_true]
    unfold getModelLoad paramsFilePath
    rw [hslot]
    simp only []
    rw [hfile]
  · unfold get_model
    rw [hdef]
    simp only [hv, if_true]
    unfold getModelLoad
    simp [List.lookup]

/-- Witness for `get_model_caches` at a concrete one-model registry. -/
theorem get_model_caches_witness :
    ∃ s1 : RegistryState,
      get_model [("data/fc-0.1.pickle", [5])]
          ⟨[("fc", ⟨fun p => p, "0.1", ["0.1"], none⟩)], [(("fc", "0.1"), none)], "data"⟩
          "fc" (some "0.1") =
          .ok ((fun p : List ℚ => p) [5], s1,
            [(none : Option String).getD "data" ++ "/" ++ "fc" ++ "-" ++ "0.1" ++ ".pickle"]) ∧
        get_model [("data/fc-0.1.pickle", [5])] s1 "fc" (some "0.1") =
          .ok ((fun p : List ℚ => p) [5], s1, []) ∧
        s1.defs = [("fc", ⟨fun p => p, "0.1", ["0.1"], none⟩)] ∧
        s1.defaultDataDir = "data" :=
  get_model_caches [("data/fc-0.1.pickle", [5])]
    ⟨[("fc", ⟨fun p => p, "0.1", ["0.1"], none⟩)], [(("fc", "0.1"), none)], "data"⟩
    "fc" "0.1" ⟨fun p => p, "0.1", ["0.1"], none⟩ [5] rfl (by simp) rfl rfl

theorem zip_map_fst (X : List (List ℚ)) (Y : List ℚ) :
    (List.zip X Y).map Prod.fst = X.take Y.length := by
  induction X generalizing Y with
  | nil => simp
  | cons x X ih =>
    cases Y with
    | nil => simp
    | cons y Y => simp [ih]

theorem zip_map_snd (X : List (List ℚ)) (Y : List ℚ) :
    (List.zip X Y).map Prod.snd = Y.take X.length := by
  induction X generalizing Y with
  | nil => simp
  | cons x X ih =>
    cases Y with
    | nil => simp
    | cons y Y => simp [ih]

theorem zip_of_map_fst_snd (l : List (List ℚ × ℚ)) :
    List.zip (l.map Prod.fst) (l.map Prod.snd) = l := by
  induction l with
  | nil => rfl
  | cons p l ih => simp [ih]

/-- C10: the server-side dataset registration validates nothing: for every
request — any `batch_size` including values below 1, any `context_id`
including ids never registered — it stores the dataset verbatim, pairing `X`
with `Y` positionally and silently dropping the trailing entries of the
longer list, and leaves the registered contexts untouched. -/
theorem server_register_dataset_no_validation (cid : ℕ) (X : List (List ℚ))
    (Y : List ℚ) (bs : ℤ) (s : ServerState) :
    (Server.register_dataset cid X Y bs s).2.datasets =
        ((Server.register_dataset cid X Y bs s).1,
          ⟨cid, X.take Y.length, Y.take X.length, bs⟩) :: s.datasets ∧
      (Server.register_dataset cid X Y bs s).2.contexts = s.contexts := by
  unfold Server.register_dataset save_dataset
  simp [zip_map_fst, zip_map_snd]

theorem client_register_dataset_ok (X : List (List ℚ)) (Y : List ℚ) (cb : CtxBlob)
    (s : ServerState) (k : ℤ) (hk : 1 ≤ k) :
    Client.register_dataset X Y (some cb) none (.int k) s =
      .ok ((s.nextId, s.nextId + 1),
        { contexts := (s.nextId, cb) :: s.contexts,
          datasets :=
            (s.nextId + 1, ⟨s.nextId, X.take Y.length, Y.take X.length, k⟩) :: s.datasets,
          nextId := s.nextId + 2 },
        [.registerCtx, .registerDs]) := by
  unfold Client.register_dataset Server.register_dataset save_context save_dataset
  have hk' : ¬ k < 1 := by omega
  simp [hk', zip_of_map_fst_snd, zip_map_fst, zip_map_snd]

/-- C5: the client `register_dataset` fails with an invalid-argument error
when both `context` and `context_id` are given, when neither is given, and
when `batch_size < 1`; when a context blob is given it is registered first,
producing a new context id, before the dataset is stored, and the call
returns the pair `(context_id, dataset_id)`. -/
theorem client_register_dataset_validation (X : List (List ℚ)) (Y : List ℚ)
    (cb : CtxBlob) (cid : ℕ) (s : ServerState) :
    (∀ bs : PyNum, ∃ e, Client.register_dataset X Y (some cb) (some cid) bs s =
      .error e ∧ e.isInvalidArgument = true) ∧
    (∀ bs : PyNum, ∃ e, Client.register_dataset X Y none none bs s =
      .error e ∧ e.isInvalidArgument = true) ∧
    (∀ k : ℤ, k < 1 → ∀ octx ocid, ∃ e,
      Client.register_dataset X Y octx ocid (.int k) s =
        .error e ∧ e.isInvalidArgument = true) ∧
    (∀ k : ℤ, 1 ≤ k →
      Client.register_dataset X Y (some cb) none (.int k) s =
        .ok ((s.nextId, s.nextId + 1),
          { contexts := (s.nextId, cb) :: s.contexts,
            datasets :=
              (s.nextId + 1, ⟨s.nextId, X.take Y.length, Y.take X.length, k⟩) :: s.datasets,
            nextId := s.nextId + 2 },
          [.registerCtx, .registerDs])) := by
  refine ⟨?_, ?_, ?_, ?_⟩
  · intro bs
    cases bs with
    | float q => exact ⟨_, rfl, rfl⟩
    | int k =>
      unfold Client.register_dataset
      by_cases h : k < 1 <;> simp [h, Err.isInvalidArgument]
  · intro bs
    cases bs with
    | float q => exact ⟨_, rfl, rfl⟩
    | int k =>
      unfold Client.register_dataset
      by_cases h : k < 1 <;> simp [h, Err.isInvalidArgument]
  · intro k hk octx ocid
    unfold Client.register_dataset
    cases octx <;> cases ocid <;> simp [hk, Err.isInvalidArgument]
  · exact fun k hk => client_register_dataset_ok X Y cb s k hk

/-- Witness for `client_register_dataset_validation` at concrete arguments
exercising each branch. -/
theorem client_register_dataset_validation_witness :
    (∃ e, Client.register_dataset [[1]] [1] (some ⟨true, ⟨0, true, true⟩⟩) (some 7)
      (.int 1) ⟨[], [], 0⟩ = .error e ∧ e.isInvalidArgument = true) ∧
    (∃ e, Client.register_dataset [[1]] [1] none none (.int 1) ⟨[], [], 0⟩ =
      .error e ∧ e.isInvalidArgument = true) ∧
    (∃ e, Client.register_dataset [[1]] [1] none (some 7) (.int 0) ⟨[], [], 0⟩ =
      .error e ∧ e.isInvalidArgument = true) ∧
    Client.register_dataset [[1]] [1] (some ⟨true, ⟨0, true, true⟩⟩) none (.int 1)
        ⟨[], [], 0⟩ =
      .ok ((0, 1),
        { contexts := [(0, ⟨true, ⟨0, true, true⟩⟩)],
          datasets := [(1, ⟨0, List.take ([1] : List ℚ).length [[1]],
            List.take ([[1]] : List (List ℚ)).length [1], 1⟩)],
          nextId := 2 },
        [.registerCtx, .registerDs]) := by
  have h := client_register_dataset_validation [[1]] [1] ⟨true, ⟨0, true, true⟩⟩ 7 ⟨[], [], 0⟩
  exact ⟨h.1 (.int 1), h.2.1 (.int 1), h.2.2.1 0 (by decide) none (some 7),
    h.2.2.2 1 (by decide)⟩

theorem train_logreg_validated (ctx : TSContext) (X : List (List ℚ)) (Y : List ℚ)
    (weights : List ℚ) (bias : ℚ) (k : ℤ) (s : ServerState) (hk : 1 ≤ k)
    (hlen : X.length = Y.length) (hsk : ctx.hasSecretKey = true) :
    train_logreg ctx X Y weights bias (.int k) s =
      train_logreg_rest ctx X Y weights bias k.toNat s := by
  unfold train_logreg
  have hk' : ¬ k < 1 := by omega
  simp [hk', hlen, hsk]

/-- C4: `train_logreg` fails with an invalid-argument error — with no
observable effect: an empty event trace and an unchanged server state —
whenever `epochs` is not a positive integer, or `len(X) != len(Y)`, or the
context holds no secret key; when all three validations pass it proceeds to
the training body. -/
theorem train_logreg_validation (ctx : TSContext) (X : List (List ℚ)) (Y : List ℚ)
    (weights : List ℚ) (bias : ℚ) (s : ServerState) :
    (∀ q : ℚ, ∃ e, train_logreg ctx X Y weights bias (.float q) s = ([], s, .error e) ∧
      e.isInvalidArgument = true) ∧
    (∀ k : ℤ, k < 1 → ∃ e, train_logreg ctx X Y weights bias (.int k) s =
      ([], s, .error e) ∧ e.isInvalidArgument = true) ∧
    (∀ ep : PyNum, X.length ≠ Y.length → ∃ e, train_logreg ctx X Y weights bias ep s =
      ([], s, .error e) ∧ e.isInvalidArgument = true) ∧
    (∀ ep : PyNum, ctx.hasSecretKey = false → ∃ e, train_logreg ctx X Y weights bias ep s =
      ([], s, .error e) ∧ e.isInvalidArgument = true) ∧
    (∀ k : ℤ, 1 ≤ k → X.length = Y.length → ctx.hasSecretKey = true →
      train_logreg ctx X Y weights bias (.int k) s =
        train_logreg_rest ctx X Y weights bias k.toNat s) := by
  refine ⟨?_, ?_, ?_, ?_, ?_⟩
  · exact fun q => ⟨_, rfl, rfl⟩
  · intro k hk
    unfold train_logreg
    simp [hk, Err.isInvalidArgument]
  · intro ep hlen
    cases ep with
    | float q => exact ⟨_, rfl, rfl⟩
    | int k =>
      unfold train_logreg
      by_cases hk : k < 1 <;> simp [hk, hlen, Err.isInvalidArgument]
  · intro ep hsk
    cases ep with
    | float q => exact ⟨_, rfl, rfl⟩
    | int k =>
      unfold train_logreg
      by_cases hk : k < 1
      · simp [hk, Err.isInvalidArgument]
      · by_cases hlen : X.length = Y.length <;> simp [hk, hlen, hsk, Err.isInvalidArgument]
  · exact fun k hk hlen hsk => train_logreg_validated ctx X Y weights bias k s hk hlen hsk

/-- Witness for `train_logreg_validation` exercising each validation branch
at concrete arguments. -/
theorem train_logreg_validation_witness :
    (∃ e, train_logreg ⟨0, true, true⟩ [[1]] [1] [1] 0 (.float (1 / 2)) ⟨[], [], 0⟩ =
      ([], ⟨[], [], 0⟩, .error e) ∧ e.isInvalidArgument = true) ∧
    (∃ e, train_logreg ⟨0, true, true⟩ [[1]] [1] [1] 0 (.int 0) ⟨[], [], 0⟩ =
      ([], ⟨[], [], 0⟩, .error e) ∧ e.isInvalidArgument = true) ∧
    (∃ e, train_logreg ⟨0, true, true⟩ [[1]] [] [1] 0 (.int 1) ⟨[], [], 0⟩ =
      ([], ⟨[], [], 0⟩, .error e) ∧ e.isInvalidArgument = true) ∧
    (∃ e, train_logreg ⟨0, true, false⟩ [[1]] [1] [1] 0 (.int 1) ⟨[], [], 0⟩ =
      ([], ⟨[], [], 0⟩, .error e) ∧ e.isInvalidArgument = true) ∧
    train_logreg ⟨0, true, true⟩ [[1]] [1] [1] 0 (.int 1) ⟨[], [], 0⟩ =
      train_logreg_rest ⟨0, true, true⟩ [[1]] [1] [1] 0 (Int.toNat 1) ⟨[], [], 0⟩ :=
  ⟨(train_logreg_validation ⟨0, true, true⟩ [[1]] [1] [1] 0 ⟨[], [], 0⟩).1 (1 / 2),
   (train_logreg_validation ⟨0, true, true⟩ [[1]] [1] [1] 0 ⟨[], [], 0⟩).2.1 0 (by decide),
   (train_logreg_validation ⟨0, true, true⟩ [[1]] [] [1] 0 ⟨[], [], 0⟩).2.2.1 (.int 1)
      (by decide),
   (train_logreg_validation ⟨0, true, false⟩ [[1]] [1] [1] 0 ⟨[], [], 0⟩).2.2.2.1 (.int 1)
      rfl,
   (train_logreg_validation ⟨0, true, true⟩ [[1]] [1] [1] 0 ⟨[], [], 0⟩).2.2.2.2 1
      (by decide) rfl rfl⟩

theorem train_lr_ok_of_ne_nil (w : List ℚ) (b : ℚ) (X : List (List ℚ)) (Y : List ℚ)
    (hne : X ≠ []) : train_lr w b X Y 1 = .ok (trainBody w b X Y) := by
  unfold train_lr
  simp [hne]

theorem epochLoop_spec (s : ServerState) (did cid : ℕ) (X : List (List ℚ))
    (Y : List ℚ) (hds : List.lookup did s.datasets = some ⟨cid, X, Y, 1⟩)
    (hne : X ≠ []) (n : ℕ) (w : List ℚ) (b : ℚ) :
    epochLoop s did n w b =
      (List.flatten (List.replicate n [Event.encryptVec, Event.encryptVec, Event.trainRound]),
       .ok ((lrRound X Y)^[n] (w, b))) := by
  induction n generalizing w b with
  | zero => simp [epochLoop]
  | succ k ih =>
    have hround : Server.train_round w b did s = .ok (trainBody w b X Y) := by
      unfold Server.train_round
      rw [hds]
      exact train_lr_ok_of_ne_nil w b X Y hne
    rw [epochLoop]
    simp only [hround, ih, List.replicate_succ, List.flatten_cons,
      Function.iterate_succ_apply]
    rfl

theorem count_flatten_replicate (n : ℕ) (l : List Event) (e : Event) :
    (List.flatten (List.replicate n l)).count e = n * l.count e := by
  induction n with
  | zero => simp
  | succ k ih =>
    rw [List.replicate_succ, List.flatten_cons, List.count_append, ih]
    ring

/-- C3: a valid `train_logreg` call registers the individually encrypted
dataset exactly once before the epoch loop — the server ends up with exactly
one new dataset and the event trace holds exactly one dataset registration,
however many epochs run — then each of the `epochs` rounds updates
`weights[i] += delta_weights[i]` for every feature and `bias += delta_bias`
from the decrypted round deltas, and the final plaintext weights and bias
after all rounds are returned. -/
theorem train_logreg_protocol (ctx : TSContext) (X : List (List ℚ)) (Y : List ℚ)
    (weights : List ℚ) (bias : ℚ) (k : ℤ) (s : ServerState)
    (hsk : ctx.hasSecretKey = true) (hk : 1 ≤ k) (hlen : X.length = Y.length)
    (hne : X ≠ []) (hw : weights.length = (X.headD []).length) :
    ∃ tr : List Event,
      train_logreg ctx X Y weights bias (.int k) s =
        (tr,
         { contexts := (s.nextId, ⟨true, ctx⟩) :: s.contexts,
           datasets := (s.nextId + 1, ⟨s.nextId, X, Y, 1⟩) :: s.datasets,
           nextId := s.nextId + 2 },
         .ok ((lrRound X Y)^[k.toNat] (weights, bias))) ∧
      tr = List.replicate (2 * X.length) Event.encryptVec ++
        [Event.registerCtx, Event.registerDs] ++
        List.flatten (List.replicate k.toNat
          [Event.encryptVec, Event.encryptVec, Event.trainRound]) ∧
      tr.count Event.registerDs = 1 := by
  obtain ⟨x0, X', rfl⟩ : ∃ x0 X', X = x0 :: X' := by
    cases X with
    | nil => exact absurd rfl hne
    | cons a l => exact ⟨a, l, rfl⟩
  have htake1 : (x0 :: X').take Y.length = x0 :: X' := by
    rw [← hlen, List.take_length]
  have htake2 : Y.take (x0 :: X').length = Y := by
    rw [hlen, List.take_length]
  have hreg := client_register_dataset_ok (x0 :: X') Y ⟨true, ctx⟩ s 1 (by omega)
  rw [htake1, htake2] at hreg
  have hzlen : (List.zip (x0 :: X') Y).length = (x0 :: X').length := by
    rw [List.length_zip, hlen, min_self]
  have hloop := epochLoop_spec
    { contexts := (s.nextId, ⟨true, ctx⟩) :: s.contexts,
      datasets := (s.nextId + 1, ⟨s.nextId, x0 :: X', Y, 1⟩) :: s.datasets,
      nextId := s.nextId + 2 }
    (s.nextId + 1) s.nextId (x0 :: X') Y (by simp [List.lookup]) hne k.toNat
    weights bias
  refine ⟨_, ?_, rfl, ?_⟩
  · rw [train_logreg_validated ctx (x0 :: X') Y weights bias k s hk hlen hsk]
    unfold train_logreg_rest
    have hw' : weights.length = x0.length := hw
    simp only [hreg]
    rw [if_pos hw', hzlen, hloop]
  · rw [List.count_append, List.count_append, List.count_replicate,
      count_flatten_replicate]
    rfl

/-- Witness for `train_logreg_protocol` at a concrete one-example dataset and
one epoch. -/
theorem train_logreg_protocol_witness :
    ∃ tr : List Event,
      train_logreg ⟨0, true, true⟩ [[1]] [1] [1] 0 (.int 1) ⟨[], [], 0⟩ =
        (tr,
         { contexts := (0, ⟨true, ⟨0, true, true⟩⟩) :: ([] : List (ℕ × CtxBlob)),
           datasets := (0 + 1, ⟨0, [[1]], [1], 1⟩) :: ([] : List (ℕ × StoredDataset)),
           nextId := 0 + 2 },
         .ok ((lrRound [[1]] [1])^[Int.toNat 1] ([1], 0))) ∧
      tr = List.replicate (2 * ([[1]] : List (List ℚ)).length) Event.encryptVec ++
        [Event.registerCtx, Event.registerDs] ++
        List.flatten (List.replicate (Int.toNat 1)
          [Event.encryptVec, Event.encryptVec, Event.trainRound]) ∧
      tr.count Event.registerDs = 1 :=
  train_logreg_protocol ⟨0, true, true⟩ [[1]] [1] [1] 0 1 ⟨[], [], 0⟩ rfl
    (by decide) rfl (by decide) rfl

end EEval
